import Mathlib

/-!
Shallow embedding of the `sethvargo/protobuf` Rust upb wrapper:
`src/rust/upb/wire.rs` (status enums, `encode`, `decode_new`, `decode`) and
`src/rust/upb/owned_data.rs` (`OwnedData<T>`).

The foreign upb routines (`upb_Encode`, `upb_Decode`, `upb_Message_New`) and
the `Arena` allocator are external collaborators declared but not implemented
under `src/`; they are modelled as opaque parameters (an `UpbFFI` record of
functions) and opaque handle types.  Raw pointers are modelled as natural
numbers, with `0` standing for the null pointer; `NonNull<T>` handles are
modelled by the handle type itself (non-nullness is carried by the type, as
in Rust).  A Rust function that can panic is modelled with `RustOutcome`,
which has an explicit `panicked` constructor besides `ok` and `err`.
-/

set_option autoImplicit false

namespace Upb

/-- Raw pointer to an opaque `upb_MiniTable` schema descriptor
(`*const upb_MiniTable`); the address may in principle be null (0). -/
structure MiniTablePtr where
  addr : Nat
deriving DecidableEq

/-- Opaque non-null raw message handle (`RawMessage = NonNull<upb_Message>`). -/
structure RawMessage where
  id : Nat
deriving DecidableEq

/-- Opaque raw arena context token (`RawArena`), passed verbatim to foreign
routines. -/
structure RawArena where
  id : Nat
deriving DecidableEq

/-- Arena handle (external collaborator).  Only its identity and its raw
context token are consumed by the code under `src/`, so it is modelled as an
opaque identifier.  Freshness of `Arena::new()` is modelled by supplying the
fresh identifier explicitly as a parameter of the operations that allocate. -/
structure Arena where
  id : Nat
deriving DecidableEq

/-- Models `Arena::new()`: the caller-side environment supplies the fresh
identifier of the newly created region. -/
def Arena.new (fresh : Nat) : Arena :=
  ⟨fresh⟩

/-- Models `Arena::raw()`: the raw context token of the arena. -/
def Arena.raw (a : Arena) : RawArena :=
  ⟨a.id⟩

/-- Encode-side status enumeration from `wire.rs` (`#[repr(C)] enum
EncodeStatus`). -/
inductive EncodeStatus where
  | Ok
  | OutOfMemory
  | MaxDepthExceeded
  | MissingRequired
deriving DecidableEq

/-- Pinned numeric discriminants of `EncodeStatus` (`Ok = 0`, `OutOfMemory =
1`, `MaxDepthExceeded = 2`, `MissingRequired = 3` in the source). -/
def EncodeStatus.discriminant : EncodeStatus → Nat
  | .Ok => 0
  | .OutOfMemory => 1
  | .MaxDepthExceeded => 2
  | .MissingRequired => 3

/-- Decode-side status enumeration from `wire.rs` (`#[repr(C)] enum
DecodeStatus`). -/
inductive DecodeStatus where
  | Ok
  | Malformed
  | OutOfMemory
  | BadUtf8
  | MaxDepthExceeded
  | MissingRequired
  | UnlinkedSubMessage
deriving DecidableEq

/-- Pinned numeric discriminants of `DecodeStatus` (`Ok = 0` through
`UnlinkedSubMessage = 6` in the source). -/
def DecodeStatus.discriminant : DecodeStatus → Nat
  | .Ok => 0
  | .Malformed => 1
  | .OutOfMemory => 2
  | .BadUtf8 => 3
  | .MaxDepthExceeded => 4
  | .MissingRequired => 5
  | .UnlinkedSubMessage => 6

/-- Fat pointer to a byte slice: models both the `NonNull<[u8]>` built in
`encode` from `(buf, len)` and the `(as_ptr, len)` view of a `&[u8]` argument
of the decode functions. -/
structure Slice where
  ptr : Nat
  len : Nat
deriving DecidableEq

/-- An owned `T` in a upb arena: pairs the data handle with the owning arena
(`owned_data.rs`, `struct OwnedData<T>`). -/
structure OwnedData (T : Type) where
  data : T
  arena : Arena

/-- Models `OwnedData::new(data, arena)`: plain pairing, no other effect
(the Rust body is `OwnedData { arena, data }`). -/
def OwnedData.new {T : Type} (data : T) (arena : Arena) : OwnedData T :=
  { arena := arena, data := data }

/-- Models `OwnedData::as_ref(&self) -> &T`, which dereferences the stored
`NonNull<T>`; pointer dereference is modelled by an explicit memory map from
handles to pointees. -/
def OwnedData.as_ref {T V : Type} (mem : T → V) (o : OwnedData T) : V :=
  mem o.data

/-- Models `<OwnedData<T> as Deref>::deref`, whose body calls `as_ref`. -/
def OwnedData.deref {T V : Type} (mem : T → V) (o : OwnedData T) : V :=
  o.as_ref mem

/-- Models `OwnedData::into_parts(self) -> (NonNull<T>, Arena)`. -/
def OwnedData.into_parts {T : Type} (o : OwnedData T) : T × Arena :=
  (o.data, o.arena)

/-- Models `<OwnedData<T> as Debug>::fmt`, whose body formats `self.deref()`;
formatting of the pointee type is modelled by an explicit function. -/
def OwnedData.fmt {T V : Type} (fmtV : V → String) (mem : T → V)
    (o : OwnedData T) : String :=
  fmtV (o.deref mem)

/-- The trait implementations `owned_data.rs` provides for `OwnedData<T>`
besides the inherent one: `impl Deref`, `impl AsRef<T>`, `impl Debug`.
The struct has no derive attribute and no other impl block, in particular no
equality (`PartialEq`) implementation. -/
def OwnedData.providedImpls : List String :=
  ["Deref", "AsRef", "Debug"]

/-- Out-parameter results of the foreign encoder `upb_Encode`: the returned
status together with the values written through the `buf`/`buf_size` output
pointers (`buf = 0` models a null buffer pointer). -/
structure EncodeReturn where
  status : EncodeStatus
  buf : Nat
  len : Nat
deriving DecidableEq

/-- The opaque foreign routines of `wire.rs`'s `extern` block, plus
`upb_Message_New` from the crate root, modelled as an abstract record of
functions.  `upb_Decode`'s fifth argument is the extension-registry pointer
(0 = null) and its sixth the decode options. `upb_Message_New` returns
`none` when message creation fails (a null handle). -/
structure UpbFFI where
  upb_Encode : RawMessage → MiniTablePtr → Int → RawArena → EncodeReturn
  upb_Decode : Nat → Nat → RawMessage → MiniTablePtr → Nat → Int → RawArena → DecodeStatus
  upb_Message_New : MiniTablePtr → RawArena → Option RawMessage

/-- Outcome of a Rust function returning `Result<α, ε>` that may also panic:
`panicked` models an `assert!`/`unwrap` failure. -/
inductive RustOutcome (ε α : Type) where
  | panicked
  | err (e : ε)
  | ok (a : α)
deriving DecidableEq

/-- Models `encode(msg, mini_table)` from `wire.rs`: create a fresh arena,
call `upb_Encode(msg, mini_table, 0, arena.raw(), &mut buf, &mut len)`; on
`Ok` assert the buffer is non-null and wrap `(buf, len)` with the arena into
`OwnedData`; otherwise return the status as the error. -/
def encode (ffi : UpbFFI) (freshId : Nat) (msg : RawMessage)
    (mini_table : MiniTablePtr) : RustOutcome EncodeStatus (OwnedData Slice) :=
  let arena := Arena.new freshId
  let r := ffi.upb_Encode msg mini_table 0 arena.raw
  if r.status = EncodeStatus.Ok then
    if r.buf = 0 then
      RustOutcome.panicked
    else
      RustOutcome.ok (OwnedData.new ⟨r.buf, r.len⟩ arena)
  else
    RustOutcome.err r.status

/-- Models `decode(buf, msg, mini_table, arena)` from `wire.rs`: call
`upb_Decode(buf.as_ptr(), buf.len(), msg, mini_table, null, 0, arena.raw())`
and map `Ok` to success, any other status to the error. -/
def decode (ffi : UpbFFI) (buf : Slice) (msg : RawMessage)
    (mini_table : MiniTablePtr) (arena : Arena) : Except DecodeStatus Unit :=
  let len := buf.len
  let p := buf.ptr
  let status := ffi.upb_Decode p len msg mini_table 0 0 arena.raw
  match status with
  | DecodeStatus.Ok => Except.ok ()
  | s => Except.error s

/-- Models `decode_new(buf, mini_table)` from `wire.rs`: create a fresh
arena, create a new message in it (`upb_Message_New(...).unwrap()`, panicking
on a null handle), run `decode`, and on success couple the message with the
fresh arena into `OwnedData`. -/
def decode_new (ffi : UpbFFI) (freshId : Nat) (buf : Slice)
    (mini_table : MiniTablePtr) : RustOutcome DecodeStatus (OwnedData RawMessage) :=
  let arena := Arena.new freshId
  match ffi.upb_Message_New mini_table arena.raw with
  | none => RustOutcome.panicked
  | some msg =>
    match decode ffi buf msg mini_table arena with
    | Except.ok _ => RustOutcome.ok (OwnedData.new msg arena)
    | Except.error s => RustOutcome.err s

/-- Helper: closed-form characterization of `encode` (definitional). -/
theorem encode_spec (ffi : UpbFFI) (freshId : Nat) (msg : RawMessage)
    (mt : MiniTablePtr) :
    encode ffi freshId msg mt =
      if (ffi.upb_Encode msg mt 0 (Arena.new freshId).raw).status = EncodeStatus.Ok then
        if (ffi.upb_Encode msg mt 0 (Arena.new freshId).raw).buf = 0 then
          RustOutcome.panicked
        else
          RustOutcome.ok (OwnedData.new
            ⟨(ffi.upb_Encode msg mt 0 (Arena.new freshId).raw).buf,
             (ffi.upb_Encode msg mt 0 (Arena.new freshId).raw).len⟩
            (Arena.new freshId))
      else
        RustOutcome.err (ffi.upb_Encode msg mt 0 (Arena.new freshId).raw).status := rfl

/-- Helper: closed-form characterization of `decode`. -/
theorem decode_spec (ffi : UpbFFI) (buf : Slice) (msg : RawMessage)
    (mt : MiniTablePtr) (arena : Arena) :
    decode ffi buf msg mt arena =
      if ffi.upb_Decode buf.ptr buf.len msg mt 0 0 arena.raw = DecodeStatus.Ok then
        Except.ok ()
      else
        Except.error (ffi.upb_Decode buf.ptr buf.len msg mt 0 0 arena.raw) := by
  cases hs : ffi.upb_Decode buf.ptr buf.len msg mt 0 0 arena.raw <;> simp [decode, hs]

/-- Helper: closed-form characterization of `decode_new`. -/
theorem decode_new_spec (ffi : UpbFFI) (freshId : Nat) (buf : Slice)
    (mt : MiniTablePtr) :
    decode_new ffi freshId buf mt =
      match ffi.upb_Message_New mt (Arena.new freshId).raw with
      | none => RustOutcome.panicked
      | some msg =>
        if ffi.upb_Decode buf.ptr buf.len msg mt 0 0 (Arena.new freshId).raw = DecodeStatus.Ok then
          RustOutcome.ok (OwnedData.new msg (Arena.new freshId))
        else
          RustOutcome.err (ffi.upb_Decode buf.ptr buf.len msg mt 0 0 (Arena.new freshId).raw) := by
  cases hm : ffi.upb_Message_New mt (Arena.new freshId).raw with
  | none => simp [decode_new, hm]
  | some msg =>
    by_cases hd : ffi.upb_Decode buf.ptr buf.len msg mt 0 0 (Arena.new freshId).raw = DecodeStatus.Ok <;>
      simp [decode_new, hm, decode_spec, hd]

/-- C4: the two status enumerations are closed sets of mutually exclusive,
pinned numeric discriminants assigned consecutively from 0 in the listed
order: `EncodeStatus` has `Ok = 0`, `OutOfMemory = 1`, `MaxDepthExceeded = 2`,
`MissingRequired = 3`; `DecodeStatus` has `Ok = 0`, `Malformed = 1`,
`OutOfMemory = 2`, `BadUtf8 = 3`, `MaxDepthExceeded = 4`,
`MissingRequired = 5`, `UnlinkedSubMessage = 6`; distinct variants never
share a numeric value (the enumerations below are complete and the mapped
discriminant lists have no duplicates). -/
theorem status_discriminants_pinned :
    ([EncodeStatus.Ok, EncodeStatus.OutOfMemory, EncodeStatus.MaxDepthExceeded,
        EncodeStatus.MissingRequired].map EncodeStatus.discriminant
      = [0, 1, 2, 3]) ∧
    ([DecodeStatus.Ok, DecodeStatus.Malformed, DecodeStatus.OutOfMemory,
        DecodeStatus.BadUtf8, DecodeStatus.MaxDepthExceeded,
        DecodeStatus.MissingRequired, DecodeStatus.UnlinkedSubMessage].map
        DecodeStatus.discriminant
      = [0, 1, 2, 3, 4, 5, 6]) ∧
    (∀ a : EncodeStatus,
      a ∈ [EncodeStatus.Ok, EncodeStatus.OutOfMemory,
           EncodeStatus.MaxDepthExceeded, EncodeStatus.MissingRequired]) ∧
    (∀ a : DecodeStatus,
      a ∈ [DecodeStatus.Ok, DecodeStatus.Malformed, DecodeStatus.OutOfMemory,
           DecodeStatus.BadUtf8, DecodeStatus.MaxDepthExceeded,
           DecodeStatus.MissingRequired, DecodeStatus.UnlinkedSubMessage]) ∧
    ([EncodeStatus.Ok, EncodeStatus.OutOfMemory, EncodeStatus.MaxDepthExceeded,
        EncodeStatus.MissingRequired].map EncodeStatus.discriminant).Nodup ∧
    ([DecodeStatus.Ok, DecodeStatus.Malformed, DecodeStatus.OutOfMemory,
        DecodeStatus.BadUtf8, DecodeStatus.MaxDepthExceeded,
        DecodeStatus.MissingRequired, DecodeStatus.UnlinkedSubMessage].map
        DecodeStatus.discriminant).Nodup :=
  ⟨by decide, by decide, fun a => by cases a <;> decide,
   fun a => by cases a <;> decide, by decide, by decide⟩

/-- C5: constructing the arena-owned wrapper and decomposing it is the
identity (`into_parts (new d a) = (d, a)`); `data` returns the handle given
at construction; the borrowed reference obtained via `as_ref`/`deref` is the
dereference of exactly that handle; and construction is pure pairing with no
further effect. -/
theorem ownedData_construct_decompose {T V : Type} (d : T) (a : Arena)
    (mem : T → V) :
    (OwnedData.new d a).into_parts = (d, a) ∧
    (OwnedData.new d a).data = d ∧
    (OwnedData.new d a).arena = a ∧
    (OwnedData.new d a).as_ref mem = mem d ∧
    (OwnedData.new d a).deref mem = mem d ∧
    OwnedData.new d a = { data := d, arena := a } :=
  ⟨rfl, rfl, rfl, rfl, rfl, rfl⟩

/-- C9 counterexample: `owned_data.rs` provides no equality implementation
for the wrapper — its impl surface is exactly `Deref`, `AsRef` and `Debug`
(there is no `PartialEq` impl and no derive attribute on the struct), so
equality comparison of two wrappers is not provided. -/
theorem ownedData_eq_not_provided :
    "PartialEq" ∉ OwnedData.providedImpls := by decide

/-- C9 (amended): formatting of the wrapper delegates to the borrowed value
(the `Debug` impl formats `self.deref()`), but equality comparison of
wrappers is not provided by the wrapper type; only `Deref`, `AsRef` and
`Debug` are implemented. -/
theorem ownedData_debug_delegates {T V : Type} (fmtV : V → String)
    (mem : T → V) (o : OwnedData T) :
    OwnedData.fmt fmtV mem o = fmtV (o.deref mem) ∧
    OwnedData.fmt fmtV mem o = fmtV (mem o.data) ∧
    "Debug" ∈ OwnedData.providedImpls ∧
    "PartialEq" ∉ OwnedData.providedImpls :=
  ⟨rfl, rfl, by decide, by decide⟩

/-- C1: every fallible operation returns a tagged success-or-status result
and never a partial success: `encode` returns `Err s` exactly when the
foreign encoder returned a status `s` distinct from `Ok` (and then `s` is
that foreign status); `decode` returns `Err s` exactly when the foreign
decoder returned `s ≠ Ok`; `decode_new` returns `Err s` exactly when message
creation succeeded and the foreign decoder returned `s ≠ Ok` on the created
message; an `Err` result never carries the `Ok` discriminant. -/
theorem fallible_results_tagged (ffi : UpbFFI) (freshId : Nat)
    (msg : RawMessage) (mt : MiniTablePtr) (buf : Slice) (dmsg : RawMessage)
    (arena : Arena) :
    (∀ s, encode ffi freshId msg mt = RustOutcome.err s ↔
      ((ffi.upb_Encode msg mt 0 (Arena.new freshId).raw).status = s ∧
        s ≠ EncodeStatus.Ok)) ∧
    (∀ s, decode ffi buf dmsg mt arena = Except.error s ↔
      (ffi.upb_Decode buf.ptr buf.len dmsg mt 0 0 arena.raw = s ∧
        s ≠ DecodeStatus.Ok)) ∧
    (∀ s, decode_new ffi freshId buf mt = RustOutcome.err s ↔
      ∃ m, ffi.upb_Message_New mt (Arena.new freshId).raw = some m ∧
        ffi.upb_Decode buf.ptr buf.len m mt 0 0 (Arena.new freshId).raw = s ∧
        s ≠ DecodeStatus.Ok) := by
  refine ⟨?_, ?_, ?_⟩
  · intro s
    rw [encode_spec]
    generalize ffi.upb_Encode msg mt 0 (Arena.new freshId).raw = r
    by_cases hs : r.status = EncodeStatus.Ok
    · by_cases hb : r.buf = 0 <;>
        · rw [if_pos hs]
          constructor
          · intro h; simp [hb] at h
          · rintro ⟨h1, h2⟩; exact absurd (h1.symm.trans hs) h2
    · rw [if_neg hs]
      constructor
      · intro h
        injection h with h'
        exact ⟨h', fun he => hs (h'.trans he)⟩
      · rintro ⟨h1, _⟩; rw [h1]
  · intro s
    rw [decode_spec]
    generalize ffi.upb_Decode buf.ptr buf.len dmsg mt 0 0 arena.raw = st
    by_cases hd : st = DecodeStatus.Ok
    · rw [if_pos hd]
      constructor
      · intro h; simp at h
      · rintro ⟨h1, h2⟩; exact absurd (h1.symm.trans hd) h2
    · rw [if_neg hd]
      constructor
      · intro h
        injection h with h'
        exact ⟨h', fun he => hd (h'.trans he)⟩
      · rintro ⟨h1, _⟩; rw [h1]
  · intro s
    rw [decode_new_spec]
    cases hm : ffi.upb_Message_New mt (Arena.new freshId).raw with
    | none =>
      constructor
      · intro h; simp at h
      · rintro ⟨m, hm', _⟩; simp at hm'
    | some m =>
      constructor
      · intro h
        dsimp only at h
        by_cases hd : ffi.upb_Decode buf.ptr buf.len m mt 0 0 (Arena.new freshId).raw = DecodeStatus.Ok
        · rw [if_pos hd] at h; simp at h
        · rw [if_neg hd] at h
          injection h with h'
          exact ⟨m, rfl, h', fun he => hd (h'.trans he)⟩
      · rintro ⟨m', hm', h1, h2⟩
        injection hm' with hm''
        subst hm''
        dsimp only
        rw [if_neg (fun he => h2 (h1.symm.trans he)), h1]

/-- C6: `encode` creates a fresh arena dedicated to the call and passes that
arena's raw context token to the foreign encoder (the result depends on the
foreign world only through its value at `(msg, mini_table, 0, fresh raw
token)`); on success the returned owned value couples the buffer address and
length reported through the output parameters with that same fresh arena;
and on any non-`Ok` status the result is the bare status, carrying no data
and no arena. -/
theorem encode_couples_fresh_arena (ffi : UpbFFI) (freshId : Nat)
    (msg : RawMessage) (mt : MiniTablePtr) :
    (∀ ffi' : UpbFFI,
      ffi'.upb_Encode msg mt 0 (Arena.new freshId).raw =
          ffi.upb_Encode msg mt 0 (Arena.new freshId).raw →
        encode ffi' freshId msg mt = encode ffi freshId msg mt) ∧
    (∀ od, encode ffi freshId msg mt = RustOutcome.ok od →
      od.arena = Arena.new freshId ∧
      od.data = ⟨(ffi.upb_Encode msg mt 0 (Arena.new freshId).raw).buf,
                 (ffi.upb_Encode msg mt 0 (Arena.new freshId).raw).len⟩) ∧
    ((ffi.upb_Encode msg mt 0 (Arena.new freshId).raw).status ≠ EncodeStatus.Ok →
      encode ffi freshId msg mt =
        RustOutcome.err (ffi.upb_Encode msg mt 0 (Arena.new freshId).raw).status) := by
  refine ⟨?_, ?_, ?_⟩
  · intro ffi' h
    rw [encode_spec, encode_spec, h]
  · intro od h
    rw [encode_spec] at h
    by_cases hs : (ffi.upb_Encode msg mt 0 (Arena.new freshId).raw).status = EncodeStatus.Ok
    · rw [if_pos hs] at h
      by_cases hb : (ffi.upb_Encode msg mt 0 (Arena.new freshId).raw).buf = 0
      · rw [if_pos hb] at h; simp at h
      · rw [if_neg hb] at h
        injection h with h'
        rw [← h']
        exact ⟨rfl, rfl⟩
    · rw [if_neg hs] at h; simp at h
  · intro hs
    rw [encode_spec, if_neg hs]

/-- C7: the core decode routine invokes the foreign byte-level decoder with
exactly the buffer's address and length, the message handle, the schema
descriptor, a null (0) extension registry, zero decode options, and the raw
context token of the caller-supplied arena — and nothing else: the result is
the stated function of that single application, and any foreign world
agreeing at that application point yields the same result. -/
theorem decode_invocation_exact (ffi : UpbFFI) (buf : Slice)
    (msg : RawMessage) (mt : MiniTablePtr) (arena : Arena) :
    (decode ffi buf msg mt arena =
      if ffi.upb_Decode buf.ptr buf.len msg mt 0 0 arena.raw = DecodeStatus.Ok then
        Except.ok ()
      else
        Except.error (ffi.upb_Decode buf.ptr buf.len msg mt 0 0 arena.raw)) ∧
    (∀ ffi' : UpbFFI,
      ffi'.upb_Decode buf.ptr buf.len msg mt 0 0 arena.raw =
          ffi.upb_Decode buf.ptr buf.len msg mt 0 0 arena.raw →
        decode ffi' buf msg mt arena = decode ffi buf msg mt arena) := by
  refine ⟨decode_spec ffi buf msg mt arena, ?_⟩
  intro ffi' h
  rw [decode_spec, decode_spec, h]

/-- C10: if the foreign message-creation routine fails (returns a null
handle) inside `decode_new`, the operation panics rather than returning any
`DecodeStatus` discriminant; `decode_new` returns a status only for failures
reported by the foreign decoder itself on the created message. -/
theorem decode_new_unwrap_panics (ffi : UpbFFI) (freshId : Nat) (buf : Slice)
    (mt : MiniTablePtr) :
    (ffi.upb_Message_New mt (Arena.new freshId).raw = none →
      decode_new ffi freshId buf mt = RustOutcome.panicked ∧
      ∀ s, decode_new ffi freshId buf mt ≠ RustOutcome.err s) ∧
    (∀ s, decode_new ffi freshId buf mt = RustOutcome.err s →
      ∃ m, ffi.upb_Message_New mt (Arena.new freshId).raw = some m ∧
        ffi.upb_Decode buf.ptr buf.len m mt 0 0 (Arena.new freshId).raw = s) := by
  constructor
  · intro hm
    rw [decode_new_spec, hm]
    exact ⟨rfl, fun s h => by simp at h⟩
  · intro s h
    rw [decode_new_spec] at h
    cases hm : ffi.upb_Message_New mt (Arena.new freshId).raw with
    | none => rw [hm] at h; simp at h
    | some m =>
      rw [hm] at h
      dsimp only at h
      by_cases hd : ffi.upb_Decode buf.ptr buf.len m mt 0 0 (Arena.new freshId).raw = DecodeStatus.Ok
      · rw [if_pos hd] at h; simp at h
      · rw [if_neg hd] at h
        injection h with h'
        exact ⟨m, rfl, h'⟩

/-- C2: under the trusted foreign contract (a foreign status of `Ok` implies
a non-null output buffer, even for serialized length zero), the defensive
non-null assertion in `encode` never fires, and a successful `encode` yields
a non-null buffer handle of the foreign-reported length — never a null
handle paired with `Ok`. -/
theorem encode_assert_never_fires (ffi : UpbFFI) (freshId : Nat)
    (msg : RawMessage) (mt : MiniTablePtr)
    (trusted : (ffi.upb_Encode msg mt 0 (Arena.new freshId).raw).status = EncodeStatus.Ok →
      (ffi.upb_Encode msg mt 0 (Arena.new freshId).raw).buf ≠ 0) :
    encode ffi freshId msg mt ≠ RustOutcome.panicked ∧
    ((ffi.upb_Encode msg mt 0 (Arena.new freshId).raw).status = EncodeStatus.Ok →
      encode ffi freshId msg mt =
        RustOutcome.ok (OwnedData.new
          ⟨(ffi.upb_Encode msg mt 0 (Arena.new freshId).raw).buf,
           (ffi.upb_Encode msg mt 0 (Arena.new freshId).raw).len⟩
          (Arena.new freshId)) ∧
      (ffi.upb_Encode msg mt 0 (Arena.new freshId).raw).buf ≠ 0) := by
  constructor
  · intro h
    rw [encode_spec] at h
    by_cases hs : (ffi.upb_Encode msg mt 0 (Arena.new freshId).raw).status = EncodeStatus.Ok
    · rw [if_pos hs, if_neg (trusted hs)] at h
      simp at h
    · rw [if_neg hs] at h
      simp at h
  · intro hs
    refine ⟨?_, trusted hs⟩
    rw [encode_spec, if_pos hs, if_neg (trusted hs)]

/-- Concrete foreign world whose encoder succeeds with a non-null, zero
length buffer; used as the evaluation point of `encode_assert_never_fires`. -/
def ffiOkEmpty : UpbFFI where
  upb_Encode := fun _ _ _ _ => ⟨EncodeStatus.Ok, 1, 0⟩
  upb_Decode := fun _ _ _ _ _ _ _ => DecodeStatus.Ok
  upb_Message_New := fun _ ra => some ⟨ra.id⟩

/-- C2 witness: the trusted-contract hypothesis holds for `ffiOkEmpty` and
the theorem's conclusion evaluates there (a zero-length success, non-null
buffer). -/
theorem encode_assert_never_fires_witness :
    ((ffiOkEmpty.upb_Encode ⟨7⟩ ⟨2⟩ 0 (Arena.new 0).raw).status = EncodeStatus.Ok →
      (ffiOkEmpty.upb_Encode ⟨7⟩ ⟨2⟩ 0 (Arena.new 0).raw).buf ≠ 0) ∧
    (encode ffiOkEmpty 0 ⟨7⟩ ⟨2⟩ ≠ RustOutcome.panicked ∧
     ((ffiOkEmpty.upb_Encode ⟨7⟩ ⟨2⟩ 0 (Arena.new 0).raw).status = EncodeStatus.Ok →
       encode ffiOkEmpty 0 ⟨7⟩ ⟨2⟩ =
         RustOutcome.ok (OwnedData.new
           ⟨(ffiOkEmpty.upb_Encode ⟨7⟩ ⟨2⟩ 0 (Arena.new 0).raw).buf,
            (ffiOkEmpty.upb_Encode ⟨7⟩ ⟨2⟩ 0 (Arena.new 0).raw).len⟩
           (Arena.new 0)) ∧
       (ffiOkEmpty.upb_Encode ⟨7⟩ ⟨2⟩ 0 (Arena.new 0).raw).buf ≠ 0)) :=
  ⟨fun _ => by decide,
   encode_assert_never_fires ffiOkEmpty 0 ⟨7⟩ ⟨2⟩ (fun _ => by decide)⟩

/-- C3: when `decode_new` fails it returns only the status discriminant,
which is never `Ok`; the internally created message and its fresh arena are
discarded — no owned value is observable through the result, which is
exactly the bare error status. -/
theorem decode_new_failure_atomic (ffi : UpbFFI) (freshId : Nat) (buf : Slice)
    (mt : MiniTablePtr) (s : DecodeStatus)
    (h : decode_new ffi freshId buf mt = RustOutcome.err s) :
    s ≠ DecodeStatus.Ok ∧
    (∀ od : OwnedData RawMessage,
      decode_new ffi freshId buf mt ≠ RustOutcome.ok od) ∧
    decode_new ffi freshId buf mt = RustOutcome.err s := by
  refine ⟨?_, ?_, h⟩
  · intro he
    subst he
    rw [decode_new_spec] at h
    cases hm : ffi.upb_Message_New mt (Arena.new freshId).raw with
    | none => rw [hm] at h; simp at h
    | some m =>
      rw [hm] at h
      dsimp only at h
      by_cases hd : ffi.upb_Decode buf.ptr buf.len m mt 0 0 (Arena.new freshId).raw = DecodeStatus.Ok
      · rw [if_pos hd] at h; simp at h
      · rw [if_neg hd] at h
        injection h with h'
        exact hd h'
  · intro od hok
    rw [h] at hok
    simp at hok

/-- Concrete foreign world whose decoder always reports `Malformed`; used as
the evaluation point of `decode_new_failure_atomic`. -/
def ffiDecodeFail : UpbFFI where
  upb_Encode := fun _ _ _ _ => ⟨EncodeStatus.OutOfMemory, 0, 0⟩
  upb_Decode := fun _ _ _ _ _ _ _ => DecodeStatus.Malformed
  upb_Message_New := fun _ ra => some ⟨ra.id⟩

/-- C3 witness: `decode_new` on `ffiDecodeFail` returns exactly
`err Malformed`, and the theorem's conclusion evaluates there. -/
theorem decode_new_failure_atomic_witness :
    decode_new ffiDecodeFail 0 ⟨1, 3⟩ ⟨2⟩ = RustOutcome.err DecodeStatus.Malformed ∧
    (DecodeStatus.Malformed ≠ DecodeStatus.Ok ∧
     (∀ od : OwnedData RawMessage,
       decode_new ffiDecodeFail 0 ⟨1, 3⟩ ⟨2⟩ ≠ RustOutcome.ok od) ∧
     decode_new ffiDecodeFail 0 ⟨1, 3⟩ ⟨2⟩ = RustOutcome.err DecodeStatus.Malformed) :=
  ⟨rfl, decode_new_failure_atomic ffiDecodeFail 0 ⟨1, 3⟩ ⟨2⟩ DecodeStatus.Malformed rfl⟩

/-- Modelled from the spec: the foreign byte-level codec bodies
(`upb_Encode`/`upb_Decode` implementations and `upb_Message_New`), which are
declared `extern` in `wire.rs` but whose code is not under `src/`.  `fields
m mt` is the field assignment a message handle `m` carries under schema `mt`
once the foreign routines have run; the contract states the spec's words:
message creation yields a valid handle, and whenever the encoder succeeds on
`msg`, decoding the produced buffer (address and length as reported through
the output parameters) into a freshly created empty message under the same
schema returns `Ok` and populates every field of that message with the
corresponding field of `msg`. -/
structure CodecRoundTrip (ffi : UpbFFI)
    (fields : RawMessage → MiniTablePtr → List (Nat × Nat)) : Prop where
  message_new_ok : ∀ (mt : MiniTablePtr) (ra : RawArena),
    ffi.upb_Message_New mt ra ≠ none
  decode_roundtrip : ∀ (msg : RawMessage) (mt : MiniTablePtr) (encRa : RawArena)
    (m : RawMessage) (decRa : RawArena),
    (ffi.upb_Encode msg mt 0 encRa).status = EncodeStatus.Ok →
    ffi.upb_Message_New mt decRa = some m →
    ffi.upb_Decode (ffi.upb_Encode msg mt 0 encRa).buf
        (ffi.upb_Encode msg mt 0 encRa).len m mt 0 0 decRa = DecodeStatus.Ok ∧
    fields m mt = fields msg mt

/-- C8: for any message `m` populated under schema `s`, decoding the buffer
produced by a successful `encode(m, s)` with `decode_new` under the same
schema succeeds and yields a message whose every field equals the
corresponding field of `m` — assuming the spec-modelled round-trip contract
of the foreign codec. -/
theorem encode_decode_roundtrip (ffi : UpbFFI)
    (fields : RawMessage → MiniTablePtr → List (Nat × Nat))
    (hc : CodecRoundTrip ffi fields) (msg : RawMessage) (mt : MiniTablePtr)
    (encId decId : Nat) (od : OwnedData Slice)
    (henc : encode ffi encId msg mt = RustOutcome.ok od) :
    ∃ od' : OwnedData RawMessage,
      decode_new ffi decId od.data mt = RustOutcome.ok od' ∧
      fields od'.data mt = fields msg mt := by
  rw [encode_spec] at henc
  by_cases hs : (ffi.upb_Encode msg mt 0 (Arena.new encId).raw).status = EncodeStatus.Ok
  · by_cases hb : (ffi.upb_Encode msg mt 0 (Arena.new encId).raw).buf = 0
    · rw [if_pos hs, if_pos hb] at henc
      simp at henc
    · rw [if_pos hs, if_neg hb] at henc
      injection henc with h'
      cases hm : ffi.upb_Message_New mt (Arena.new decId).raw with
      | none => exact absurd hm (hc.message_new_ok mt (Arena.new decId).raw)
      | some m =>
        obtain ⟨hdec, hfields⟩ :=
          hc.decode_roundtrip msg mt (Arena.new encId).raw m (Arena.new decId).raw hs hm
        refine ⟨OwnedData.new m (Arena.new decId), ?_, hfields⟩
        rw [decode_new_spec, hm]
        dsimp only
        rw [← h']
        dsimp only [OwnedData.new]
        rw [if_pos hdec]
  · rw [if_neg hs] at henc
    simp at henc

/-- Concrete foreign world satisfying the round-trip codec contract; used as
the evaluation point of `encode_decode_roundtrip`. -/
def ffiRoundTrip : UpbFFI where
  upb_Encode := fun _ _ _ _ => ⟨EncodeStatus.Ok, 1, 0⟩
  upb_Decode := fun _ _ _ _ _ _ _ => DecodeStatus.Ok
  upb_Message_New := fun _ _ => some ⟨0⟩

/-- Trivial field semantics for the concrete round-trip world. -/
def trivialFields : RawMessage → MiniTablePtr → List (Nat × Nat) :=
  fun _ _ => []

/-- Helper: `ffiRoundTrip` satisfies the spec-modelled codec contract. -/
theorem ffiRoundTrip_contract : CodecRoundTrip ffiRoundTrip trivialFields :=
  ⟨fun _ _ h => Option.noConfusion h, fun _ _ _ _ _ _ _ => ⟨rfl, rfl⟩⟩

/-- C8 witness: the codec contract and a successful encode hold at the
concrete world, and the round-trip conclusion evaluates there. -/
theorem encode_decode_roundtrip_witness :
    CodecRoundTrip ffiRoundTrip trivialFields ∧
    encode ffiRoundTrip 5 ⟨7⟩ ⟨2⟩ =
      RustOutcome.ok (OwnedData.new ⟨1, 0⟩ (Arena.new 5)) ∧
    (∃ od' : OwnedData RawMessage,
      decode_new ffiRoundTrip 9
          (OwnedData.new (⟨1, 0⟩ : Slice) (Arena.new 5)).data ⟨2⟩ =
        RustOutcome.ok od' ∧
      trivialFields od'.data ⟨2⟩ = trivialFields ⟨7⟩ ⟨2⟩) :=
  ⟨ffiRoundTrip_contract, rfl,
   encode_decode_roundtrip ffiRoundTrip trivialFields ffiRoundTrip_contract
     ⟨7⟩ ⟨2⟩ 5 9 (OwnedData.new ⟨1, 0⟩ (Arena.new 5)) rfl⟩

end Upb
